import Mathlib

/-!
Shallow embedding of the typed attribute graph layer of zoocore_maya.

The model mirrors the Python modules

  * zoo/libs/maya/api/plugs.py   (namespace Plugs)
  * zoo/libs/maya/api/nodes.py   (namespace Nodes)
  * zoo/libs/maya/meta/base.py   (namespace Meta)

over an explicit scene state.  A scene holds dependency nodes, each with a
list of attribute slots, and a list of directed plug-to-plug connections.
Maya host primitives (MPlug lock flags, MDGModifier connect and disconnect,
attribute creation and deletion, node lock state, node liveness through
MObjectHandle) are represented as explicit state transformers.  Python
exceptions are represented with an Except value threaded next to the state.

Host-level enforcement that is irrelevant to the verified claims is not
modelled: the host refusal to mutate a locked plug never fires on the traced
paths because the library unlocks plugs before mutating them, and numeric
payload values are opaque data.  Deleted Maya nodes stay on the undo queue,
so function sets attached to them still answer queries; a dead node is kept
in the node list with its alive flag cleared.
-/

/-- Python exception kinds raised by the traced code paths. -/
inductive PyErr where
  | valueError (msg : String)
  | attributeError (msg : String)
  | keyError (msg : String)
  | runtimeError (msg : String)
deriving Repr, DecidableEq

/-- An MPlug: a node id plus an attribute name, optionally an array element
logical index (for element plugs of array attributes). -/
structure Plug where
  node : Nat
  attr : String
  idx : Option Nat := none
deriving Repr, DecidableEq

/-- One attribute slot on a node: name, plug lock flag, attrtypes constant
(attrtypes.py assigns kMFnMessageAttribute = 36, kMFnDataString = 13 and so
on), array flag and an opaque stored value. -/
structure AttrSlot where
  aname : String
  locked : Bool := false
  typ : Nat := 36
  isArray : Bool := false
  value : Option String := none
deriving Repr, DecidableEq

/-- A dependency node: id, scene name, attribute slots, node lock flag and
liveness (MObjectHandle.isValid and isAlive combined). -/
structure SceneNode where
  nid : Nat
  nodeName : String
  attrs : List AttrSlot
  nodeLocked : Bool := false
  alive : Bool := true
deriving Repr, DecidableEq

/-- A directed connection between two plugs. -/
structure Edge where
  src : Plug
  dst : Plug
deriving Repr, DecidableEq

/-- The scene: dependency nodes plus the connection list. -/
structure Scene where
  nodes : List SceneNode
  edges : List Edge
deriving Repr, DecidableEq

def findNode (s : Scene) (n : Nat) : Option SceneNode :=
  s.nodes.find? (fun nd => nd.nid == n)

/-- MObjectHandle.isValid and isAlive, as used by MetaBase.exists. -/
def existsNode (s : Scene) (n : Nat) : Bool :=
  match findNode s n with
  | some nd => nd.alive
  | none => false

/-- MFnDependencyNode.hasAttribute. -/
def hasAttribute (s : Scene) (n : Nat) (a : String) : Bool :=
  match findNode s n with
  | some nd => nd.attrs.any (fun sl => sl.aname == a)
  | none => false

/-- MFnDependencyNode.isLocked (node lock flag). -/
def nodeIsLocked (s : Scene) (n : Nat) : Bool :=
  match findNode s n with
  | some nd => nd.nodeLocked
  | none => false

/-- MPlug.isLocked for the plug attribute (element plugs share the lock of
their attribute in this model). -/
def plugIsLocked (s : Scene) (p : Plug) : Bool :=
  match findNode s p.node with
  | some nd =>
    match nd.attrs.find? (fun sl => sl.aname == p.attr) with
    | some sl => sl.locked
    | none => false
  | none => false

def updateNode (s : Scene) (n : Nat) (f : SceneNode → SceneNode) : Scene :=
  { s with nodes := s.nodes.map (fun nd => if nd.nid == n then f nd else nd) }

def updateAttr (s : Scene) (n : Nat) (a : String) (f : AttrSlot → AttrSlot) : Scene :=
  updateNode s n (fun nd =>
    { nd with attrs := nd.attrs.map (fun sl => if sl.aname == a then f sl else sl) })

/-- MPlug.isLocked assignment. -/
def setPlugLocked (s : Scene) (p : Plug) (b : Bool) : Scene :=
  updateAttr s p.node p.attr (fun sl => { sl with locked := b })

/-- nodes.lockNode: MDGModifier.setNodeLockState on the node. -/
def setNodeLockState (s : Scene) (n : Nat) (b : Bool) : Scene :=
  updateNode s n (fun nd => { nd with nodeLocked := b })

/-- plugs.setPlugValue restricted to the opaque payloads of this model. -/
def setPlugValue (s : Scene) (p : Plug) (v : String) : Scene :=
  updateAttr s p.node p.attr (fun sl => { sl with value := some v })

/-- Stored string value of an attribute, as MPlug.asString reads it. -/
def attrStringValue (s : Scene) (n : Nat) (a : String) : String :=
  match findNode s n with
  | some nd =>
    match nd.attrs.find? (fun sl => sl.aname == a) with
    | some sl => sl.value.getD ""
    | none => ""
  | none => ""

/-- MPlug.destinations: all plugs this plug feeds. -/
def destinations (s : Scene) (p : Plug) : List Plug :=
  (s.edges.filter (fun e => e.src == p)).map (fun e => e.dst)

/-- MPlug.source: the plug feeding this plug, if any. -/
def sourceOf (s : Scene) (p : Plug) : Option Plug :=
  (s.edges.find? (fun e => e.dst == p)).map (fun e => e.src)

/-- MPlug.isSource. -/
def isSourcePlug (s : Scene) (p : Plug) : Bool :=
  s.edges.any (fun e => e.src == p)

/-- MPlug.isDestination. -/
def isDestinationPlug (s : Scene) (p : Plug) : Bool :=
  s.edges.any (fun e => e.dst == p)

/-- MPlug.isConnected. -/
def plugIsConnected (s : Scene) (p : Plug) : Bool :=
  isSourcePlug s p || isDestinationPlug s p

/-- MDGModifier.connect followed by doIt. -/
def addEdge (s : Scene) (e : Edge) : Scene :=
  { s with edges := s.edges ++ [e] }

/-- MDGModifier.disconnect followed by doIt. -/
def removeEdge (s : Scene) (src dst : Plug) : Scene :=
  { s with edges := s.edges.filter (fun e => !(e.src == src && e.dst == dst)) }

/-- cmds.deleteAttr: removes the attribute from the node together with every
connection touching any of its plugs. -/
def deleteAttr (s : Scene) (n : Nat) (a : String) : Scene :=
  let s1 := updateNode s n (fun nd =>
    { nd with attrs := nd.attrs.filter (fun sl => sl.aname != a) })
  { s1 with edges := s1.edges.filter (fun e =>
      !((e.src.node == n && e.src.attr == a) || (e.dst.node == n && e.dst.attr == a))) }

/-- MPlug.name: the scene name of the owning node, a dot, then the attribute
name. -/
def plugFullName (s : Scene) (p : Plug) : String :=
  (match findNode s p.node with
   | some nd => nd.nodeName
   | none => "") ++ "." ++ p.attr

/-- nodes.iterConnections with source False and destination True: for every
plug of the node that is a destination, the pair of that plug and the plug
feeding it. -/
def nodeDestConnections (s : Scene) (n : Nat) : List (Plug × Plug) :=
  s.edges.filterMap (fun e => if e.dst.node == n then some (e.dst, e.src) else none)

namespace Plugs

/-- plugs.connectPlugs: when the destination already has an incoming
connection and force is set, first disconnect that connection, then connect;
without force raise ValueError. -/
def connectPlugs (s : Scene) (source dest : Plug) (force : Bool) : Except String Scene :=
  if isDestinationPlug s dest then
    if force then
      let s1 := match sourceOf s dest with
        | some sp => removeEdge s sp dest
        | none => s
      Except.ok (addEdge s1 ⟨source, dest⟩)
    else Except.error "plug has an incoming connection"
  else Except.ok (addEdge s ⟨source, dest⟩)

/-- plugs.disconnectPlug: unlock the plug, then, if fromSource and the plug is
a destination, unlock its source and disconnect it; if fromDest and the plug
is a source, unlock and disconnect every destination.  Returns True. -/
def disconnectPlug (s : Scene) (p : Plug) (fromSource fromDest : Bool) : Scene × Bool :=
  let s1 := if plugIsLocked s p then setPlugLocked s p false else s
  let s2 :=
    if fromSource && isDestinationPlug s1 p then
      match sourceOf s1 p with
      | some sp =>
        let s1a := if plugIsLocked s1 sp then setPlugLocked s1 sp false else s1
        removeEdge s1a sp p
      | none => s1
    else s1
  let s3 :=
    if fromDest && isSourcePlug s2 p then
      (destinations s2 p).foldl
        (fun acc c =>
          let acc1 := if plugIsLocked acc c then setPlugLocked acc c false else acc
          removeEdge acc1 p c) s2
    else s2
  (s3, true)

/-- plugs.setLockedContext as a combinator over the wrapped operation.  The
Python context manager is a generator without a try and finally block: it
records the lock state, clears it, yields, and restores the state after the
yield.  When the wrapped operation raises, the generator is never resumed
past the yield, so the restore statement does not run and the error
propagates with whatever lock state the body left. -/
def setLockedContext (p : Plug) (body : Scene → Scene × Except PyErr α) (s : Scene) :
    Scene × Except PyErr α :=
  let current := plugIsLocked s p
  let s1 := if current then setPlugLocked s p false else s
  match body s1 with
  | (s2, Except.ok a) => (setPlugLocked s2 p current, Except.ok a)
  | (s2, Except.error e) => (s2, Except.error e)

/-- The connection list the walk looks at: the destinations of the plug when
transverseType is "down", otherwise the single source plug when one exists
(an unconnected plug feeds the loop nothing). -/
def plugConns (s : Scene) (down : Bool) (p : Plug) : List Plug :=
  if down then destinations s p else (sourceOf s p).toList

/-- Fuel-indexed body of plugs.iterDependencyGraph.  One unit of fuel is one
unit of depthLimit; the Python guard `if depthLimit < 1: return` sits inside
the connection loop before the first yield, so a call with depthLimit below
one yields nothing, which the zero-fuel case captures.  The walk recomputes
the searched name exactly as the source does: the alternativeName argument
when non-empty, otherwise the long partial name of the plug. -/
def iterDGAux (s : Scene) (down : Bool) : Nat → Plug → String → List Plug
  | 0, _, _ => []
  | Nat.succ k, p, alternativeName =>
    let name := if alternativeName == "" then p.attr else alternativeName
    let conns := plugConns s down p
    conns.flatMap (fun c =>
      if hasAttribute s c.node name then
        let nodePlug : Plug := ⟨c.node, name, none⟩
        nodePlug ::
          (if plugIsConnected s nodePlug then iterDGAux s down k nodePlug name else [])
      else [])

/-- plugs.iterDependencyGraph over an integer depthLimit, with down encoding
transverseType equal to "down". -/
def iterDependencyGraph (s : Scene) (p : Plug) (alternativeName : String)
    (depthLimit : Int) (down : Bool) : List Plug :=
  iterDGAux s down depthLimit.toNat p alternativeName

/-- Top-level names defined by the module zoo.libs.maya.api.plugs.  An
attribute lookup on the module object succeeds exactly for the names in this
list. -/
def plugsModuleNames : List String :=
  ["AXIS", "asMPlug", "connectPlugs", "connectVectorPlugs", "disconnectPlug",
   "removeUnConnectedEmptyElements", "isValidMPlug", "setLockedContext",
   "setLockState", "filterConnected", "filterConnectedNodes",
   "iterDependencyGraph", "serializePlug", "enumNames", "enumIndices",
   "plugDefault", "setPlugDefault", "hasPlugMin", "hasPlugMax",
   "hasPlugSoftMin", "hasPlugSoftMax", "getPlugMin", "getPlugMax",
   "getSoftMin", "setSoftMin", "getSoftMax", "setSoftMax", "setMin", "setMax",
   "getPlugValue", "getPlugAndType", "getNumericValue", "getTypedValue",
   "setPlugValue", "getPlugFn", "iterChildren", "plugType",
   "getPythonTypeFromPlugValue", "pythonTypeToMayaType",
   "nextAvailableElementPlug"]

end Plugs

namespace Nodes

/-- nodes.addAttribute: raises ValueError when the node already carries an
attribute of that long name, otherwise creates the attribute (unlocked, with
no stored value). -/
def addAttribute (s : Scene) (n : Nat) (name : String) (typ : Nat) : Except String Scene :=
  if hasAttribute s n name then
    Except.error "node already has attribute"
  else
    Except.ok (updateNode s n (fun nd =>
      { nd with attrs := nd.attrs ++ [{ aname := name, locked := false, typ := typ }] }))

end Nodes

namespace Meta

def MCLASS_ATTR_NAME : String := "mClass"

def MPARENT_ATTR_NAME : String := "mMetaParent"

def MCHILDREN_ATTR_NAME : String := "mMetaChildren"

/-- attrtypes.kMFnMessageAttribute. -/
def kMFnMessageAttribute : Nat := 36

/-- MetaBase.mobject: returns the handle object, raising ValueError when the
node no longer exists in the scene. -/
def mobject (s : Scene) (n : Nat) : Except PyErr Nat :=
  if existsNode s n then Except.ok n
  else Except.error (PyErr.valueError "Meta node no longer exists in the scene")

/-- base.lockMetaManager as a combinator over the decorated method body.  When
the node is locked it is unlocked through nodes.lockNode (whose argument
node.mobject() raises ValueError on a dead node), the body runs inside a try
block, and the finally block relocks the node when it still exists. -/
def lockMetaManager (nid : Nat) (body : Scene → Scene × Except PyErr α) (s : Scene) :
    Scene × Except PyErr α :=
  if nodeIsLocked s nid then
    match mobject s nid with
    | Except.error e => (s, Except.error e)
    | Except.ok _ =>
      let s1 := setNodeLockState s nid false
      let (s2, r) := body s1
      let s3 := if existsNode s2 nid then setNodeLockState s2 nid true else s2
      (s3, r)
  else body s

/-- MetaBase.addAttribute: wrapped in lockMetaManager; returns the existing
plug unchanged when the attribute already exists, otherwise creates it
through nodes.addAttribute, optionally writes the value, and sets the plug
lock flag to the lock argument.  The MObject-valued branch (which would call
connectTo) is outside this model; values here are plain payloads. -/
def metaAddAttribute (nid : Nat) (name : String) (value : Option String) (typ : Nat)
    (lock : Bool) : Scene → Scene × Except PyErr (Option Plug) :=
  lockMetaManager nid (fun s =>
    if hasAttribute s nid name then (s, Except.ok (some ⟨nid, name, none⟩))
    else
      match Nodes.addAttribute s nid name typ with
      | Except.error _ =>
        (s, Except.error (PyErr.valueError "Failed to create attribute"))
      | Except.ok s1 =>
        let newPlug : Plug := ⟨nid, name, none⟩
        let s2 := match value with
          | none => s1
          | some v => setPlugValue s1 newPlug v
        (setPlugLocked s2 newPlug lock, Except.ok (some newPlug)))

/-- MetaBase.removeAttribute: wrapped in lockMetaManager; returns False when
the node no longer exists, otherwise unlocks and deletes the attribute when
present. -/
def metaRemoveAttribute (nid : Nat) (name : String) : Scene → Scene × Except PyErr Bool :=
  lockMetaManager nid (fun s =>
    if !existsNode s nid then (s, Except.ok false)
    else if hasAttribute s nid name then
      let p : Plug := ⟨nid, name, none⟩
      let s1 := if plugIsLocked s p then setPlugLocked s p false else s
      (deleteAttr s1 nid name, Except.ok true)
    else (s, Except.ok false))

/-- Loop body of MetaBase.disconnectFromNode over the pairs produced by
nodes.iterConnections(node, False, True).  Each pair binds the loop variable
named source to the destination plug sitting on the argument node and the
variable named destination to the plug feeding it, so the guard comparing
source.node() with the meta object only passes when the argument node is the
meta node itself.  On a match: plugs.disconnectPlug(source, destination)
passes the destination plug as the truthy source flag, the plug is unlocked,
cmds.deleteAttr removes the feeding plug attribute, and self.removeAttribute
receives the full dotted plug name. -/
def disconnectFromNodeLoop (selfNid : Nat) :
    List (Plug × Plug) → Scene → Scene × Except PyErr Bool
  | [], s => (s, Except.ok false)
  | (pl, feed) :: rest, s =>
    if pl.node != selfNid then disconnectFromNodeLoop selfNid rest s
    else
      let s1 := (Plugs.disconnectPlug s pl true true).1
      let s2 := if plugIsLocked s1 pl then setPlugLocked s1 pl false else s1
      let s3 := deleteAttr s2 feed.node feed.attr
      let (s4, _) := metaRemoveAttribute selfNid (plugFullName s3 pl) s3
      (s4, Except.ok true)

/-- MetaBase.disconnectFromNode. -/
def disconnectFromNode (selfNid node : Nat) (s : Scene) : Scene × Except PyErr Bool :=
  match mobject s selfNid with
  | Except.error e => (s, Except.error e)
  | Except.ok _ => disconnectFromNodeLoop selfNid (nodeDestConnections s node) s

/-- MetaBase.connectTo: resolves the destination attribute name (default
metaNode), calls disconnectFromNode on the destination node, creates or
disconnects the destination attribute, resolves or creates the source
attribute on the meta node, then connects inside setLockedContext with the
destination plug unlocked for the connection and relocked afterwards. -/
def connectTo (selfNid : Nat) (attributeName : String) (node : Nat)
    (nodeAttributeName : Option String) (s : Scene) : Scene × Except PyErr Plug :=
  let destAttrName := nodeAttributeName.getD "metaNode"
  match disconnectFromNode selfNid node s with
  | (s0, Except.error e) => (s0, Except.error e)
  | (s1, Except.ok _) =>
    match (if !hasAttribute s1 node destAttrName then
             (Nodes.addAttribute s1 node destAttrName kMFnMessageAttribute).map
               (fun sx => sx)
           else
             Except.ok (Plugs.disconnectPlug s1 ⟨node, destAttrName, none⟩ true true).1) with
    | Except.error m => (s1, Except.error (PyErr.valueError m))
    | Except.ok s2 =>
      let destinationPlug : Plug := ⟨node, destAttrName, none⟩
      match (if hasAttribute s2 selfNid attributeName then
               (s2, Except.ok (some (⟨selfNid, attributeName, none⟩ : Plug)))
             else
               metaAddAttribute selfNid attributeName none kMFnMessageAttribute true s2) with
      | (s3, Except.error e) => (s3, Except.error e)
      | (s3, Except.ok newAttr) =>
        let sourcePlug : Plug := match newAttr with
          | some p => p
          | none => ⟨selfNid, attributeName, none⟩
        Plugs.setLockedContext sourcePlug (fun sIn =>
          let sIn1 := if plugIsLocked sIn destinationPlug
                      then setPlugLocked sIn destinationPlug false else sIn
          match Plugs.connectPlugs sIn1 sourcePlug destinationPlug true with
          | Except.error m => (sIn1, Except.error (PyErr.valueError m))
          | Except.ok sC => (setPlugLocked sC destinationPlug true,
                             Except.ok destinationPlug)) s3

/-- MetaBase.removeParent: locates the parent array plug (findPlug raises
RuntimeError when it is missing), then, inside setLockedContext on that plug,
disconnects every connected parent element whose feeding node matches the
filter (all of them when the filter is empty) and removes the array elements.
Returns True. -/
def metaRemoveParent (childNid : Nat) (parentFilter : Option Nat) (s : Scene) :
    Scene × Except PyErr Bool :=
  if !hasAttribute s childNid MPARENT_ATTR_NAME then
    (s, Except.error (PyErr.runtimeError "findPlug failed"))
  else
    Plugs.setLockedContext ⟨childNid, MPARENT_ATTR_NAME, none⟩ (fun sIn =>
      ({ sIn with edges := sIn.edges.filter (fun e =>
           !((e.dst.node == childNid) && (e.dst.attr == MPARENT_ATTR_NAME) &&
             (match parentFilter with
              | none => true
              | some pr => e.src.node == pr))) }, Except.ok true)) s

/-- MetaBase.addParent: after findPlug on the parent array attribute (which
raises RuntimeError when the attribute is missing), the next statement
evaluates plugs.nextAvailableDestElementPlug.  That name is not among the
definitions of the plugs module (see Plugs.plugsModuleNames), so the module
attribute lookup raises AttributeError before setLockedContext is entered and
before any connection is made; execution never reaches connectPlugs. -/
def metaAddParent (childNid _parentNid : Nat) (s : Scene) : Scene × Except PyErr Unit :=
  if !hasAttribute s childNid MPARENT_ATTR_NAME then
    (s, Except.error (PyErr.runtimeError "findPlug failed"))
  else
    (s, Except.error (PyErr.attributeError
      "module plugs has no attribute nextAvailableDestElementPlug"))

/-- MetaBase.addChild: child.removeParent() followed by child.addParent(self). -/
def metaAddChild (selfNid childNid : Nat) (s : Scene) : Scene × Except PyErr Unit :=
  match metaRemoveParent childNid none s with
  | (s1, Except.error e) => (s1, Except.error e)
  | (s1, Except.ok _) => metaAddParent childNid selfNid s1

/-- MetaBase.iterMetaChildren: findPlug on the children attribute (RuntimeError
when missing), then the dependency graph walk downwards from that plug,
returning the node of every yielded plug. -/
def iterMetaChildren (s : Scene) (nid : Nat) (depthLimit : Int) :
    Except PyErr (List Nat) :=
  if hasAttribute s nid MCHILDREN_ATTR_NAME then
    Except.ok ((Plugs.iterDependencyGraph s ⟨nid, MCHILDREN_ATTR_NAME, none⟩ ""
      depthLimit true).map Plug.node)
  else Except.error (PyErr.runtimeError "findPlug failed")

/-- base.isMetaNode on an MObject: the node carries the class tag attribute
and its string value is a registered type name.  The registry content is an
explicit argument. -/
def isMetaNodeB (s : Scene) (registryTypes : List String) (n : Nat) : Bool :=
  hasAttribute s n MCLASS_ATTR_NAME &&
    registryTypes.contains (attrStringValue s n MCLASS_ATTR_NAME)

/-- Fuel-indexed body of MetaBase.iterMetaTree: walk the incoming connections
of the node, yield every meta node found, and recurse with one less unit of
depth (the Python guard `if depthLimit < 1: return` is the zero-fuel case). -/
def iterMetaTreeAux (s : Scene) (registryTypes : List String) :
    Nat → Nat → List Nat
  | 0, _ => []
  | Nat.succ k, nid =>
    (nodeDestConnections s nid).flatMap (fun pr =>
      if isMetaNodeB s registryTypes pr.2.node then
        pr.2.node :: iterMetaTreeAux s registryTypes k pr.2.node
      else [])

/-- MetaBase.iterMetaTree over an integer depthLimit. -/
def iterMetaTree (s : Scene) (registryTypes : List String) (nid : Nat)
    (depthLimit : Int) : List Nat :=
  iterMetaTreeAux s registryTypes depthLimit.toNat nid

end Meta

namespace Registry

/-- A Python class object as the registry sees it: its name, whether it is a
subclass of MetaBase, whether it is an instance of MetaBase (always false for
class objects), and an identity tag distinguishing distinct class objects
that share a name. -/
structure PyClass where
  cname : String
  isMetaBaseSubclass : Bool
  isMetaBaseInstance : Bool := false
  cid : Nat := 0
deriving Repr, DecidableEq

/-- Lookup in a Python dict represented as an insertion-ordered association
list. -/
def dictLookup (m : List (String × PyClass)) (k : String) : Option PyClass :=
  (m.find? (fun kv => kv.1 == k)).map (fun kv => kv.2)

/-- Assignment into a Python dict: replace the value of an existing key in
place, otherwise append the new pair. -/
def dictSet (m : List (String × PyClass)) (k : String) (v : PyClass) :
    List (String × PyClass) :=
  if m.any (fun kv => kv.1 == k) then
    m.map (fun kv => if kv.1 == k then (k, v) else kv)
  else m ++ [(k, v)]

/-- MetaRegistry.registerMetaClass.  The Python condition is
`issubclass(classObj, MetaBase) or isinstance(classObj, MetaBase) and
classObj.__name__ not in cls.types`; by operator precedence the membership
test binds only to the isinstance disjunct, so a MetaBase subclass is always
written into the dict, replacing any class previously registered under the
same name. -/
def registerMetaClass (types : List (String × PyClass)) (c : PyClass) :
    List (String × PyClass) :=
  if c.isMetaBaseSubclass ||
     (c.isMetaBaseInstance && !(types.any (fun kv => kv.1 == c.cname))) then
    dictSet types c.cname c
  else types

/-- MetaRegistry.getType applied to the result of classNameFromPlug. The tag
argument is none when findPlug raised and classNameFromPlug returned the
exception object, in which case the dict lookup of a non-string finds
nothing. -/
def getType (types : List (String × PyClass)) (tag : Option String) : Option PyClass :=
  match tag with
  | some t => dictLookup types t
  | none => none

/-- MetaFactory.__call__.  The node argument is none when the caller creates a
fresh node; otherwise it carries the classNameFromPlug result for the passed
node (none inside when the class tag attribute is missing).  The requested
class is registered first when its name is not yet a key; then, when the
stored tag differs from the requested class name and names a registered
type, construction is re-dispatched to that type.  The result is the updated
registry and the class of the constructed instance. -/
def metaFactoryCall (types : List (String × PyClass)) (cls : PyClass)
    (node : Option (Option String)) : List (String × PyClass) × PyClass :=
  let types1 := if !(types.any (fun kv => kv.1 == cls.cname)) then
    registerMetaClass types cls else types
  match node with
  | none => (types1, cls)
  | some tag =>
    if tag == some cls.cname then (types1, cls)
    else
      match getType types1 tag with
      | none => (types1, cls)
      | some registeredType => (types1, registeredType)

end Registry

namespace Serial

/-- An opaque attribute payload appearing in serialized records. -/
inductive PValue where
  | pstr (s : String)
  | pnum (n : Int)
  | pbool (b : Bool)
  | pnone
deriving Repr, DecidableEq

/-- attrtypes.kMFnkEnumAttribute. -/
def kMFnkEnumAttribute : Nat := 12

/-- An attribute slot as plugs.serializePlug reads it: partial name, dynamic
flag, attrtypes constant, current value, whether the value equals the
default, the bound metadata, the UI flags and the enum field names. -/
structure SPlug where
  aname : String
  isDynamic : Bool
  typ : Nat
  value : PValue
  isDefaultValue : Bool
  defaultVal : Option PValue
  minVal : Option PValue
  maxVal : Option PValue
  softMinVal : Option PValue
  softMaxVal : Option PValue
  channelBox : Bool
  keyable : Bool
  locked : Bool
  enumFields : List String
deriving Repr, DecidableEq

/-- The per-attribute record emitted by plugs.serializePlug. -/
structure AttrRecord where
  aname : String
  isDynamic : Bool
  typ : Nat
  value : PValue
  channelBox : Bool
  keyable : Bool
  locked : Bool
  defaultVal : Option PValue
  minVal : Option PValue
  maxVal : Option PValue
  softMinVal : Option PValue
  softMaxVal : Option PValue
  enums : Option (List String)
deriving Repr, DecidableEq

/-- plugs.serializePlug: a dynamic plug is emitted with value, bounds, flags
and name; a static plug is emitted without bound metadata and only when its
value differs from the default; otherwise the empty (falsy) dict results,
modelled as none. -/
def serializePlug (p : SPlug) : Option AttrRecord :=
  if p.isDynamic then
    some { aname := p.aname, isDynamic := true, typ := p.typ, value := p.value,
           channelBox := p.channelBox, keyable := p.keyable, locked := p.locked,
           defaultVal := p.defaultVal, minVal := p.minVal, maxVal := p.maxVal,
           softMinVal := p.softMinVal, softMaxVal := p.softMaxVal,
           enums := if p.typ == kMFnkEnumAttribute then some p.enumFields else none }
  else if !p.isDefaultValue then
    some { aname := p.aname, isDynamic := false, typ := p.typ, value := p.value,
           channelBox := p.channelBox, keyable := p.keyable, locked := p.locked,
           defaultVal := none, minVal := none, maxVal := none,
           softMinVal := none, softMaxVal := none,
           enums := if p.typ == kMFnkEnumAttribute then some p.enumFields else none }
  else none

/-- A node as nodes.serializeNode reads it. -/
structure SNode where
  sname : String
  typeName : String
  isDag : Bool
  parentName : String
  pluginName : String
  sattrs : List SPlug
  inConnections : List (String × String × String)
deriving Repr, DecidableEq

/-- The record emitted by nodes.serializeNode; a field is none when the
corresponding dict key is absent. -/
structure NodeRecord where
  rname : String
  typeName : String
  requirements : Option String
  parent : Option String
  attributes : Option (List AttrRecord)
  connections : Option (List (String × String × String))
deriving Repr, DecidableEq

/-- nodes.serializeNode: name and type always, requirements when the type
comes from a plugin, parent only for DAG nodes, the per-attribute records
from serializePlug when any survive, and incoming connections when any
exist. -/
def serializeNode (n : SNode) : NodeRecord :=
  { rname := n.sname, typeName := n.typeName,
    requirements := if n.pluginName != "" then some n.pluginName else none,
    parent := if n.isDag then some n.parentName else none,
    attributes :=
      (let l := n.sattrs.filterMap serializePlug
       if l.isEmpty then none else some l),
    connections :=
      if n.inConnections.isEmpty then none else some n.inConnections }

/-- The Python value bound to `data.get("attributes", {})` inside
deserializeNode: the list stored by serializeNode when the key exists, the
empty dict default otherwise. -/
inductive PyContainer where
  | plist (l : List AttrRecord)
  | pdict
deriving Repr, DecidableEq

/-- Attribute lookup of items on that value: Python list objects have no
items method, so the lookup raises AttributeError; the empty dict yields an
empty pair list. -/
def pyItems : PyContainer → Except PyErr (List (String × AttrRecord))
  | PyContainer.plist _ =>
    Except.error (PyErr.attributeError "list object has no attribute items")
  | PyContainer.pdict => Except.ok []

/-- nodes.deserializeNode.  Reads name and type, then evaluates
`data["parent"]`, which raises KeyError when serializeNode omitted the key
(every non-DAG node).  When a requirements entry exists it iterates the
characters of the string, loading each as a plugin and returning None (no
node; modelled as ok false) when one fails.  It then creates the node and
evaluates `data.get("attributes", {}).items()`; the loop over attribute
records is unreachable whenever the list is non-empty because the items
lookup raises first.  Connection processing over an absent key iterates
nothing.  Ok true models a created and returned node. -/
def deserializeNode (pluginLoadable : Char → Bool) (data : NodeRecord) :
    Except PyErr Bool :=
  match data.parent with
  | none => Except.error (PyErr.keyError "parent")
  | some _ =>
    if (match data.requirements with
        | some req => !req.toList.all pluginLoadable
        | none => false) then
      Except.ok false
    else
      match pyItems (match data.attributes with
                     | some l => PyContainer.plist l
                     | none => PyContainer.pdict) with
      | Except.error e => Except.error e
      | Except.ok _ => Except.ok true

end Serial

/-! Support definitions for the traversal claims: hop-bounded reachability,
one-hop neighbour lists and the branch-pruned scene. -/

/-- The attribute names present on a node. -/
def attrNames (s : Scene) (n : Nat) : List String :=
  match findNode s n with
  | some nd => nd.attrs.map (fun sl => sl.aname)
  | none => []

/-- A node m lies within k hops of the plug p: some connection of p reaches m
directly, or reaches a node from one of whose plugs m lies within k - 1
hops. -/
def withinHops (s : Scene) (down : Bool) : Nat → Plug → Nat → Bool
  | 0, _, _ => false
  | Nat.succ k, p, m =>
    (Plugs.plugConns s down p).any (fun c =>
      c.node == m ||
        (attrNames s c.node).any (fun a => withinHops s down k ⟨c.node, a, none⟩ m))

/-- The direct neighbours a one-deep dependency graph walk yields: for every
connection of the starting plug whose far node exposes the searched name, the
plug of that name on the far node. -/
def directDGNeighbors (s : Scene) (p : Plug) (alternativeName : String)
    (down : Bool) : List Plug :=
  let name := if alternativeName == "" then p.attr else alternativeName
  (Plugs.plugConns s down p).flatMap (fun c =>
    if hasAttribute s c.node name then [⟨c.node, name, none⟩] else [])

/-- A node m lies within k upstream hops of the node n through incoming
connections. -/
def nodeWithinHopsUp (s : Scene) : Nat → Nat → Nat → Bool
  | 0, _, _ => false
  | Nat.succ k, n, m =>
    (nodeDestConnections s n).any (fun pr =>
      pr.2.node == m || nodeWithinHopsUp s k pr.2.node m)

/-- The direct neighbours a one-deep meta tree walk yields: the meta nodes
feeding the starting node. -/
def directTreeNeighbors (s : Scene) (registryTypes : List String) (nid : Nat) :
    List Nat :=
  (nodeDestConnections s nid).flatMap (fun pr =>
    if Meta.isMetaNodeB s registryTypes pr.2.node then [pr.2.node] else [])

/-- The scene with every connection into a node lacking the searched name
removed; such connections are exactly the ones the named walk skips. -/
def pruneScene (s : Scene) (name : String) : Scene :=
  { s with edges := s.edges.filter (fun e => hasAttribute s e.dst.node name) }

/-! Concrete scenes and records used to settle the claims on explicit
inputs. -/

/-- A meta node (id 0) plus two fresh target host nodes (ids 1 and 2), before
any named relation exists. -/
def c1Scene : Scene :=
  { nodes := [
      { nid := 0, nodeName := "m_meta",
        attrs := [{ aname := "mClass", locked := true, typ := 13,
                    value := some "MetaBase" }] },
      { nid := 1, nodeName := "targetA", attrs := [] },
      { nid := 2, nodeName := "targetB", attrs := [] }],
    edges := [] }

/-- The scene after connectTo("rel", targetA). -/
def c1AfterFirst : Scene := (Meta.connectTo 0 "rel" 1 none c1Scene).1

/-- The scene after connectTo("rel", targetA) then connectTo("rel", targetB). -/
def c1Final : Scene := (Meta.connectTo 0 "rel" 2 none c1AfterFirst).1

def c1RelPlug : Plug := ⟨0, "rel", none⟩

/-- A dynamic integer attribute slot with value, default and bounds. -/
def c2DynPlug : Serial.SPlug :=
  { aname := "count", isDynamic := true, typ := 2, value := Serial.PValue.pnum 7,
    isDefaultValue := false, defaultVal := some (Serial.PValue.pnum 0),
    minVal := some (Serial.PValue.pnum 0), maxVal := some (Serial.PValue.pnum 10),
    softMinVal := none, softMaxVal := none,
    channelBox := false, keyable := true, locked := false, enumFields := [] }

/-- A DAG node carrying the dynamic attribute. -/
def c2DagNode : Serial.SNode :=
  { sname := "ctrl1", typeName := "transform", isDag := true,
    parentName := "world", pluginName := "", sattrs := [c2DynPlug],
    inConnections := [] }

/-- A dependency graph node (a network node) carrying the dynamic attribute. -/
def c2DgNode : Serial.SNode :=
  { sname := "net1", typeName := "network", isDag := false, parentName := "",
    pluginName := "", sattrs := [c2DynPlug], inConnections := [] }

/-- An environment in which every plugin load succeeds. -/
def loadAllPlugins : Char → Bool := fun _ => true

/-- A node whose attribute a is locked. -/
def c3Scene : Scene :=
  { nodes := [{ nid := 0, nodeName := "n",
                attrs := [{ aname := "a", locked := true, typ := 5 }] }],
    edges := [] }

def c3LockedPlug : Plug := ⟨0, "a", none⟩

/-- A wrapped operation that raises without touching the scene. -/
def c3FailingBody : Scene → Scene × Except PyErr Unit :=
  fun s => (s, Except.error (PyErr.runtimeError "boom"))

/-- A locked meta node. -/
def c3NodeScene : Scene :=
  { nodes := [{ nid := 0, nodeName := "n", attrs := [], nodeLocked := true }],
    edges := [] }

/-- A registered concrete subtype named Rig. -/
def rigClassA : Registry.PyClass :=
  { cname := "Rig", isMetaBaseSubclass := true, cid := 1 }

/-- A second, distinct class object that also carries the name Rig. -/
def rigClassB : Registry.PyClass :=
  { cname := "Rig", isMetaBaseSubclass := true, cid := 2 }

/-- The requested base class for the factory call. -/
def metaBaseClass : Registry.PyClass :=
  { cname := "MetaBase", isMetaBaseSubclass := true, cid := 0 }

/-- A meta node whose underlying host node has been deleted (the handle is
still alive on the undo queue but no longer valid in the scene). -/
def c7Scene : Scene :=
  { nodes := [{ nid := 0, nodeName := "m_meta",
                attrs := [{ aname := "x", locked := false, typ := 13 }],
                alive := false }],
    edges := [] }

/-- A live meta node that already carries an attribute named x. -/
def c8Scene : Scene :=
  { nodes := [{ nid := 0, nodeName := "m_meta",
                attrs := [{ aname := "x", locked := false, typ := 5 }] }],
    edges := [] }

/-- A prospective parent meta node (0), a child meta node (1) with an existing
parent connection, and the old parent (2). -/
def c10Scene : Scene :=
  { nodes := [
      { nid := 0, nodeName := "parentMeta",
        attrs := [{ aname := "mMetaChildren", typ := 36 }] },
      { nid := 1, nodeName := "childMeta",
        attrs := [{ aname := "mMetaParent", typ := 36, isArray := true }] },
      { nid := 2, nodeName := "oldParent",
        attrs := [{ aname := "mMetaChildren", typ := 36 }] }],
    edges := [{ src := ⟨2, "mMetaChildren", none⟩,
                dst := ⟨1, "mMetaParent", some 0⟩ }] }

/-- A three node parent-child chain of meta nodes. -/
def chainScene : Scene :=
  { nodes := [
      { nid := 0, nodeName := "p",
        attrs := [{ aname := "mMetaChildren" },
                  { aname := "mClass", value := some "MetaBase" }] },
      { nid := 1, nodeName := "c1",
        attrs := [{ aname := "mMetaChildren" },
                  { aname := "mMetaParent", isArray := true },
                  { aname := "mClass", value := some "MetaBase" }] },
      { nid := 2, nodeName := "c2",
        attrs := [{ aname := "mMetaChildren" },
                  { aname := "mMetaParent", isArray := true },
                  { aname := "mClass", value := some "MetaBase" }] }],
    edges := [{ src := ⟨0, "mMetaChildren", none⟩, dst := ⟨1, "mMetaParent", some 0⟩ },
              { src := ⟨1, "mMetaChildren", none⟩, dst := ⟨2, "mMetaParent", some 0⟩ }] }

/-- A meta node (0) whose rel attribute feeds one node exposing rel (1) and
one node lacking it (2); the far branch continues to node 3. -/
def c6Scene : Scene :=
  { nodes := [
      { nid := 0, nodeName := "m", attrs := [{ aname := "rel" }] },
      { nid := 1, nodeName := "hasRel", attrs := [{ aname := "rel" }] },
      { nid := 2, nodeName := "noRel", attrs := [{ aname := "other" }] },
      { nid := 3, nodeName := "leaf", attrs := [{ aname := "rel" }] }],
    edges := [{ src := ⟨0, "rel", none⟩, dst := ⟨1, "rel", none⟩ },
              { src := ⟨0, "rel", none⟩, dst := ⟨2, "other", none⟩ },
              { src := ⟨1, "rel", none⟩, dst := ⟨3, "rel", none⟩ }] }

/-! Theorems settling the claims. -/

/-- C1, counterexample.  After connectTo("rel", targetA) then
connectTo("rel", targetB) on the same meta node, it is not the case that the
rel attribute has exactly one outgoing connection pointing at targetB with
the transient peer attribute removed from targetA: disconnectFromNode never
matches a foreign node (its loop variable named source is the destination
plug sitting on that node), so the first edge and the peer attribute
survive. -/
theorem connectTo_not_idempotent :
    ¬(((destinations c1Final c1RelPlug).map Plug.node = [2]) ∧
      hasAttribute c1Final 1 "metaNode" = false) := by
  decide

/-- C1, amended.  After connectTo("rel", targetA) then
connectTo("rel", targetB), the rel attribute has exactly two outgoing
connections, to targetA and then targetB in order, and the transient peer
attribute on targetA is still present. -/
theorem connectTo_accumulates_edges :
    (destinations c1Final c1RelPlug).map Plug.node = [1, 2] ∧
    hasAttribute c1Final 1 "metaNode" = true ∧
    hasAttribute c1Final 2 "metaNode" = true := by
  decide

/-- C2.  Feeding a serialized node record with any recorded attribute slot
back through deserializeNode does not recreate the attribute: serializeNode
stores the attribute records as a list, deserializeNode calls items() on
that list and raises AttributeError, and for a non-DAG node it raises
KeyError on the absent parent key even earlier, so the round trip never
succeeds (and the dynamic value restoration code below the failing call is
unreachable). -/
theorem serialize_roundtrip_fails :
    (Serial.serializeNode c2DagNode).attributes.isSome = true ∧
    Serial.deserializeNode loadAllPlugins (Serial.serializeNode c2DagNode) =
      Except.error (PyErr.attributeError "list object has no attribute items") ∧
    Serial.deserializeNode loadAllPlugins (Serial.serializeNode c2DgNode) =
      Except.error (PyErr.keyError "parent") := by
  exact ⟨rfl, rfl, rfl⟩

/-- C3.  The plug-level scoped-lock helper does not restore the lock state on
the exceptional exit path: on an initially locked plug whose wrapped
operation raises, setLockedContext leaves the plug unlocked, while the
node-level lockMetaManager (whose decorator body has a try and finally
block) does restore the node lock on the same failing operation. -/
theorem setLockedContext_drops_lock_on_error :
    plugIsLocked c3Scene c3LockedPlug = true ∧
    (Plugs.setLockedContext c3LockedPlug c3FailingBody c3Scene).2 =
      Except.error (PyErr.runtimeError "boom") ∧
    plugIsLocked (Plugs.setLockedContext c3LockedPlug c3FailingBody c3Scene).1
      c3LockedPlug = false ∧
    nodeIsLocked c3NodeScene 0 = true ∧
    (Meta.lockMetaManager 0 c3FailingBody c3NodeScene).2 =
      Except.error (PyErr.runtimeError "boom") ∧
    nodeIsLocked (Meta.lockMetaManager 0 c3FailingBody c3NodeScene).1 0 = true := by
  exact ⟨rfl, rfl, rfl, rfl, rfl, rfl⟩

/-- C7, counterexample.  removeAttribute called on a meta node whose host
node has been deleted returns False normally instead of raising: the method
body starts with an explicit existence check that returns False. -/
theorem removeAttribute_silent_on_stale :
    existsNode c7Scene 0 = false ∧
    (Meta.metaRemoveAttribute 0 "x" c7Scene).2.isOk = true ∧
    Meta.metaRemoveAttribute 0 "x" c7Scene = (c7Scene, Except.ok false) := by
  exact ⟨rfl, rfl, rfl⟩

/-- C8, counterexample.  MetaBase.addAttribute called with a name that
already exists on the node neither raises nor returns an absent slot: it
returns the existing plug and leaves the scene unchanged. -/
theorem metaAddAttribute_returns_existing :
    hasAttribute c8Scene 0 "x" = true ∧
    (Meta.metaAddAttribute 0 "x" none 5 true c8Scene).2.isOk = true ∧
    Meta.metaAddAttribute 0 "x" none 5 true c8Scene =
      (c8Scene, Except.ok (some ⟨0, "x", none⟩)) := by
  exact ⟨rfl, rfl, rfl⟩

/-- C9.  Registering a MetaBase subclass whose name is already a key replaces
the stored entry: operator precedence makes the membership guard apply only
to the isinstance disjunct, so the subclass branch always writes the dict.
Registering rigClassB over an existing rigClassA entry under the same name
yields rigClassB, a different class object. -/
theorem registerMetaClass_replaces_entry :
    Registry.dictLookup (Registry.registerMetaClass [("Rig", rigClassA)] rigClassB)
      "Rig" = some rigClassB ∧
    rigClassB ≠ rigClassA := by
  decide

/-- Helper: an in-place dict value replacement at key k does not change the
lookup of a different key. -/
theorem dictLookup_replace_ne (m : List (String × Registry.PyClass))
    (k k' : String) (v : Registry.PyClass) (h : (k' == k) = false) :
    Registry.dictLookup (m.map (fun kv => if kv.1 == k then (k, v) else kv)) k'
      = Registry.dictLookup m k' := by
  induction m with
  | nil => rfl
  | cons hd tl ih =>
    by_cases h1 : (hd.1 == k) = true
    · have hk : hd.1 = k := by
        exact beq_iff_eq.mp h1
      have hk2 : (k == k') = false := by
        cases hbe : (k == k') with
        | false => rfl
        | true =>
          have : k = k' := beq_iff_eq.mp hbe
          rw [this] at h
          simp [BEq.refl] at h
      have hk3 : (hd.1 == k') = false := by rw [hk]; exact hk2
      simp [Registry.dictLookup, List.find?, h1, hk2, hk3] at *
      exact ih
    · have h1f : (hd.1 == k) = false := by
        cases hbe : (hd.1 == k) with
        | false => rfl
        | true => exact absurd hbe h1
      by_cases h2 : (hd.1 == k') = true
      · simp [Registry.dictLookup, List.find?, h1f, h2]
      · have h2f : (hd.1 == k') = false := by
          cases hbe : (hd.1 == k') with
          | false => rfl
          | true => exact absurd hbe h2
        simp [Registry.dictLookup, List.find?, h1f, h2f] at *
        exact ih

/-- Helper: appending a pair at key k does not change the lookup of a
different key. -/
theorem dictLookup_append_ne (m : List (String × Registry.PyClass))
    (k k' : String) (v : Registry.PyClass) (h : (k' == k) = false) :
    Registry.dictLookup (m ++ [(k, v)]) k' = Registry.dictLookup m k' := by
  induction m with
  | nil =>
    have hk2 : (k == k') = false := by
      cases hbe : (k == k') with
      | false => rfl
      | true =>
        have : k = k' := beq_iff_eq.mp hbe
        rw [this] at h
        simp [BEq.refl] at h
    simp [Registry.dictLookup, List.find?, hk2]
  | cons hd tl ih =>
    by_cases h2 : (hd.1 == k') = true
    · simp [Registry.dictLookup, List.find?, h2]
    · have h2f : (hd.1 == k') = false := by
        cases hbe : (hd.1 == k') with
        | false => rfl
        | true => exact absurd hbe h2
      simp [Registry.dictLookup, List.find?, h2f] at *
      exact ih

/-- Helper: a dict assignment at key k does not change the lookup of a
different key. -/
theorem dictLookup_dictSet_ne (m : List (String × Registry.PyClass))
    (k k' : String) (v : Registry.PyClass) (h : (k' == k) = false) :
    Registry.dictLookup (Registry.dictSet m k v) k' = Registry.dictLookup m k' := by
  unfold Registry.dictSet
  by_cases hm : (m.any (fun kv => kv.1 == k)) = true
  · simp only [hm, if_true]
    exact dictLookup_replace_ne m k k' v h
  · have hmf : (m.any (fun kv => kv.1 == k)) = false := by
      cases hbe : (m.any (fun kv => kv.1 == k)) with
      | false => rfl
      | true => exact absurd hbe hm
    simp only [hmf, Bool.false_eq_true, if_false]
    exact dictLookup_append_ne m k k' v h

/-- Helper: registering a class does not change the lookup of names other
than its own. -/
theorem registerMetaClass_lookup_ne (types : List (String × Registry.PyClass))
    (c : Registry.PyClass) (t : String) (h : (t == c.cname) = false) :
    Registry.dictLookup (Registry.registerMetaClass types c) t
      = Registry.dictLookup types t := by
  unfold Registry.registerMetaClass
  by_cases hcond : (c.isMetaBaseSubclass ||
      (c.isMetaBaseInstance && !(types.any (fun kv => kv.1 == c.cname)))) = true
  · simp only [hcond, if_true]
    exact dictLookup_dictSet_ne types c.cname t c h
  · have hf : (c.isMetaBaseSubclass ||
        (c.isMetaBaseInstance && !(types.any (fun kv => kv.1 == c.cname)))) = false := by
      cases hbe : (c.isMetaBaseSubclass ||
          (c.isMetaBaseInstance && !(types.any (fun kv => kv.1 == c.cname)))) with
      | false => rfl
      | true => exact absurd hbe hcond
    simp only [hf, Bool.false_eq_true, if_false]

/-- C4.  When the stored class tag of the host node names a registered type
different from the requested class, the factory call constructs an instance
of that registered type, whatever class the caller asked for. -/
theorem metaFactory_rehydrates (types : List (String × Registry.PyClass))
    (cls T : Registry.PyClass) (t : String)
    (h1 : t ≠ cls.cname) (h2 : Registry.dictLookup types t = some T) :
    (Registry.metaFactoryCall types cls (some (some t))).2 = T := by
  have hbe : (t == cls.cname) = false := by
    cases hq : (t == cls.cname) with
    | false => rfl
    | true => exact absurd (beq_iff_eq.mp hq) h1
  have hopt : ((some t : Option String) == some cls.cname) = false := by
    simp [hbe]
  unfold Registry.metaFactoryCall
  by_cases hreg : (types.any (fun kv => kv.1 == cls.cname)) = true
  · simp only [hreg, Bool.not_true, Bool.false_eq_true, if_false, hopt]
    simp [Registry.getType, h2]
  · have hregf : (types.any (fun kv => kv.1 == cls.cname)) = false := by
      cases hq : (types.any (fun kv => kv.1 == cls.cname)) with
      | false => rfl
      | true => exact absurd hq hreg
    have hlook : Registry.dictLookup (Registry.registerMetaClass types cls) t
        = some T := by
      rw [registerMetaClass_lookup_ne types cls t hbe]
      exact h2
    simp only [hregf, Bool.not_false, if_true, hopt]
    simp [Registry.getType, hlook]

/-- C4, witness: a node tagged Rig, requested as the base class, with Rig
registered, rehydrates to the registered Rig class. -/
theorem metaFactory_rehydrates_witness :
    (Registry.metaFactoryCall [("Rig", rigClassA)] metaBaseClass
      (some (some "Rig"))).2 = rigClassA :=
  metaFactory_rehydrates [("Rig", rigClassA)] metaBaseClass rigClassA "Rig"
    (by decide) rfl

/-- Helper: mapping a nid-preserving update over a node list commutes with
find? by nid. -/
theorem find?_map_nid (l : List SceneNode) (m n : Nat) (f : SceneNode → SceneNode)
    (hid : ∀ nd, (f nd).nid = nd.nid) :
    (l.map (fun nd => if nd.nid == m then f nd else nd)).find?
        (fun nd => nd.nid == n) =
      (l.find? (fun nd => nd.nid == n)).map
        (fun nd => if nd.nid == m then f nd else nd) := by
  induction l with
  | nil => rfl
  | cons nd tl ih =>
    simp only [List.map_cons]
    by_cases h1 : (nd.nid == n) = true
    · have h2 : ((if nd.nid == m then f nd else nd).nid == n) = true := by
        by_cases hm : (nd.nid == m) = true
        · simp only [hm, if_true]
          rw [hid nd]
          exact h1
        · simp only [hm, Bool.false_eq_true, if_false]
          exact h1
      simp only [List.find?_cons, h2, h1]
      rfl
    · have h1f : (nd.nid == n) = false := by
        cases hq : (nd.nid == n) with
        | false => rfl
        | true => exact absurd hq h1
      have h2 : ((if nd.nid == m then f nd else nd).nid == n) = false := by
        by_cases hm : (nd.nid == m) = true
        · simp only [hm, if_true]
          rw [hid nd]
          exact h1f
        · simp only [hm, Bool.false_eq_true, if_false]
          exact h1f
      simp only [List.find?_cons, h2, h1f]
      exact ih

/-- Helper: updating a node through a nid-preserving function commutes with
findNode. -/
theorem findNode_updateNode (s : Scene) (m : Nat) (f : SceneNode → SceneNode)
    (n : Nat) (hid : ∀ nd, (f nd).nid = nd.nid) :
    findNode (updateNode s m f) n =
      (findNode s n).map (fun nd => if nd.nid == m then f nd else nd) := by
  unfold findNode updateNode
  exact find?_map_nid s.nodes m n f hid

/-- Helper: renaming-free slot updates keep attribute presence on a slot
list. -/
theorem any_map_aname (l : List AttrSlot) (a0 a : String) (f : AttrSlot → AttrSlot)
    (hf : ∀ sl, (f sl).aname = sl.aname) :
    (l.map (fun sl => if sl.aname == a0 then f sl else sl)).any
        (fun sl => sl.aname == a) =
      l.any (fun sl => sl.aname == a) := by
  induction l with
  | nil => rfl
  | cons sl tl ih =>
    simp only [List.map_cons, List.any_cons, ih]
    by_cases hs : (sl.aname == a0) = true
    · simp only [hs, if_true]
      rw [hf sl]
    · have hsf : (sl.aname == a0) = false := by
        cases hq2 : (sl.aname == a0) with
        | false => rfl
        | true => exact absurd hq2 hs
      simp only [hsf, Bool.false_eq_true, if_false]

/-- Helper: an attribute update through an aname-preserving function does not
change hasAttribute anywhere. -/
theorem hasAttribute_updateAttr (s : Scene) (n0 : Nat) (a0 : String)
    (f : AttrSlot → AttrSlot) (n : Nat) (a : String)
    (hf : ∀ sl, (f sl).aname = sl.aname) :
    hasAttribute (updateAttr s n0 a0 f) n a = hasAttribute s n a := by
  unfold hasAttribute updateAttr
  rw [findNode_updateNode s n0 (fun nd => { nd with attrs := nd.attrs.map (fun sl => if sl.aname == a0 then f sl else sl) }) n (fun nd => rfl)]
  cases hq : findNode s n with
  | none => rfl
  | some nd =>
    simp only [Option.map]
    by_cases hm : (nd.nid == n0) = true
    · rw [if_pos hm]
      exact any_map_aname nd.attrs a0 a f hf
    · rw [if_neg hm]

/-- Helper: setting a plug lock flag changes no attribute presence. -/
theorem hasAttribute_setPlugLocked (s : Scene) (p : Plug) (b : Bool)
    (n : Nat) (a : String) :
    hasAttribute (setPlugLocked s p b) n a = hasAttribute s n a :=
  hasAttribute_updateAttr s p.node p.attr _ n a (fun _ => rfl)

/-- Helper: setting a plug lock flag changes no connection. -/
theorem edges_setPlugLocked (s : Scene) (p : Plug) (b : Bool) :
    (setPlugLocked s p b).edges = s.edges := rfl

/-- C7, amended.  On a meta node whose host node no longer exists (and whose
node lock flag is clear), mobject raises ValueError, and so does every
mutator that starts by resolving the handle, connectTo among them; but
removeAttribute is an exception to the fail-fast rule: its body checks
existence first and returns False as a silent no-op. -/
theorem stale_mutation_behaviour (s : Scene) (nid tgt : Nat)
    (attrName rname : String)
    (h1 : existsNode s nid = false) (h2 : nodeIsLocked s nid = false) :
    Meta.mobject s nid =
      Except.error (PyErr.valueError "Meta node no longer exists in the scene") ∧
    (Meta.connectTo nid attrName tgt none s).2 =
      Except.error (PyErr.valueError "Meta node no longer exists in the scene") ∧
    (Meta.metaRemoveAttribute nid rname s).2 = Except.ok false := by
  refine ⟨?_, ?_, ?_⟩
  · simp [Meta.mobject, h1]
  · simp [Meta.connectTo, Meta.disconnectFromNode, Meta.mobject, h1]
  · simp [Meta.metaRemoveAttribute, Meta.lockMetaManager, h1, h2]

/-- C7, witness: the stale scene instantiation of the amended theorem. -/
theorem stale_mutation_behaviour_witness :
    Meta.mobject c7Scene 0 =
      Except.error (PyErr.valueError "Meta node no longer exists in the scene") ∧
    (Meta.connectTo 0 "rel" 1 none c7Scene).2 =
      Except.error (PyErr.valueError "Meta node no longer exists in the scene") ∧
    (Meta.metaRemoveAttribute 0 "y" c7Scene).2 = Except.ok false :=
  stale_mutation_behaviour c7Scene 0 1 "rel" "y" rfl rfl

/-- C8, amended.  Creating a same-named attribute fails loudly only at the
low level: nodes.addAttribute raises ValueError, while MetaBase.addAttribute
returns the pre-existing plug unchanged (an idempotent success) and leaves
the scene as it was. -/
theorem addAttribute_duplicate_behaviour (s : Scene) (nid typ2 : Nat)
    (name : String) (v : Option String) (lock : Bool)
    (h1 : hasAttribute s nid name = true) (h2 : nodeIsLocked s nid = false) :
    Nodes.addAttribute s nid name typ2 = Except.error "node already has attribute" ∧
    Meta.metaAddAttribute nid name v typ2 lock s =
      (s, Except.ok (some ⟨nid, name, none⟩)) := by
  refine ⟨?_, ?_⟩
  · simp [Nodes.addAttribute, h1]
  · simp [Meta.metaAddAttribute, Meta.lockMetaManager, h1, h2]

/-- C8, witness: a node that already carries x. -/
theorem addAttribute_duplicate_behaviour_witness :
    Nodes.addAttribute c8Scene 0 "x" 5 = Except.error "node already has attribute" ∧
    Meta.metaAddAttribute 0 "x" none 5 true c8Scene =
      (c8Scene, Except.ok (some ⟨0, "x", none⟩)) :=
  addAttribute_duplicate_behaviour c8Scene 0 5 "x" none true rfl rfl

/-- Helper: replacing the connection list changes no attribute presence. -/
theorem hasAttribute_withEdges (s : Scene) (E : List Edge) (n : Nat) (a : String) :
    hasAttribute { s with edges := E } n a = hasAttribute s n a := rfl

/-- C10.  addParent resolves plugs.nextAvailableDestElementPlug, a name the
plugs module does not define, so it raises AttributeError before any plug is
connected and leaves the scene untouched; addChild first removes every
existing parent connection of the child and then raises the same way, so the
child ends up with its old parent connections gone and no new one made. -/
theorem addParent_missing_function (s : Scene) (selfNid childNid : Nat)
    (h : hasAttribute s childNid Meta.MPARENT_ATTR_NAME = true) :
    Plugs.plugsModuleNames.contains "nextAvailableDestElementPlug" = false ∧
    Meta.metaAddParent childNid selfNid s =
      (s, Except.error (PyErr.attributeError
        "module plugs has no attribute nextAvailableDestElementPlug")) ∧
    (Meta.metaAddChild selfNid childNid s).2 =
      Except.error (PyErr.attributeError
        "module plugs has no attribute nextAvailableDestElementPlug") ∧
    (Meta.metaAddChild selfNid childNid s).1.edges =
      s.edges.filter (fun e =>
        !((e.dst.node == childNid) && (e.dst.attr == Meta.MPARENT_ATTR_NAME))) := by
  have hrun : ∀ s1 : Scene,
      hasAttribute s1 childNid Meta.MPARENT_ATTR_NAME = true →
      Meta.metaAddParent childNid selfNid s1 =
        (s1, Except.error (PyErr.attributeError
          "module plugs has no attribute nextAvailableDestElementPlug")) := by
    intro s1 h1
    simp [Meta.metaAddParent, h1]
  have hchild : (Meta.metaAddChild selfNid childNid s).2 =
      Except.error (PyErr.attributeError
        "module plugs has no attribute nextAvailableDestElementPlug") ∧
      (Meta.metaAddChild selfNid childNid s).1.edges =
      s.edges.filter (fun e =>
        !((e.dst.node == childNid) && (e.dst.attr == Meta.MPARENT_ATTR_NAME))) := by
    unfold Meta.metaAddChild Meta.metaRemoveParent
    rw [if_neg (by simp [h])]
    unfold Plugs.setLockedContext
    simp only []
    by_cases hcur : plugIsLocked s ⟨childNid, Meta.MPARENT_ATTR_NAME, none⟩ = true
    · rw [if_pos hcur]
      have hS : hasAttribute (setPlugLocked
          { nodes := (setPlugLocked s ⟨childNid, Meta.MPARENT_ATTR_NAME, none⟩ false).nodes,
            edges := List.filter (fun e =>
              !(e.dst.node == childNid && e.dst.attr == Meta.MPARENT_ATTR_NAME && true))
              (setPlugLocked s ⟨childNid, Meta.MPARENT_ATTR_NAME, none⟩ false).edges }
          ⟨childNid, Meta.MPARENT_ATTR_NAME, none⟩
          (plugIsLocked s ⟨childNid, Meta.MPARENT_ATTR_NAME, none⟩))
          childNid Meta.MPARENT_ATTR_NAME = true := by
        rw [hasAttribute_setPlugLocked]
        show hasAttribute (setPlugLocked s ⟨childNid, Meta.MPARENT_ATTR_NAME, none⟩ false)
          childNid Meta.MPARENT_ATTR_NAME = true
        rw [hasAttribute_setPlugLocked]
        exact h
      rw [hrun _ hS]
      refine ⟨rfl, ?_⟩
      show ((setPlugLocked
          { nodes := (setPlugLocked s ⟨childNid, Meta.MPARENT_ATTR_NAME, none⟩ false).nodes,
            edges := List.filter (fun e =>
              !(e.dst.node == childNid && e.dst.attr == Meta.MPARENT_ATTR_NAME && true))
              (setPlugLocked s ⟨childNid, Meta.MPARENT_ATTR_NAME, none⟩ false).edges }
          ⟨childNid, Meta.MPARENT_ATTR_NAME, none⟩
          (plugIsLocked s ⟨childNid, Meta.MPARENT_ATTR_NAME, none⟩)).edges) =
        s.edges.filter (fun e =>
          !((e.dst.node == childNid) && (e.dst.attr == Meta.MPARENT_ATTR_NAME)))
      rw [edges_setPlugLocked]
      show List.filter (fun e =>
          !(e.dst.node == childNid && e.dst.attr == Meta.MPARENT_ATTR_NAME && true)) s.edges =
        s.edges.filter (fun e =>
          !((e.dst.node == childNid) && (e.dst.attr == Meta.MPARENT_ATTR_NAME)))
      apply List.filter_congr
      intro e _
      simp
    · rw [if_neg hcur]
      have hS : hasAttribute (setPlugLocked
          { nodes := s.nodes,
            edges := List.filter (fun e =>
              !(e.dst.node == childNid && e.dst.attr == Meta.MPARENT_ATTR_NAME && true))
              s.edges }
          ⟨childNid, Meta.MPARENT_ATTR_NAME, none⟩
          (plugIsLocked s ⟨childNid, Meta.MPARENT_ATTR_NAME, none⟩))
          childNid Meta.MPARENT_ATTR_NAME = true := by
        rw [hasAttribute_setPlugLocked]
        show hasAttribute s childNid Meta.MPARENT_ATTR_NAME = true
        exact h
      rw [hrun _ hS]
      refine ⟨rfl, ?_⟩
      show List.filter (fun e =>
          !(e.dst.node == childNid && e.dst.attr == Meta.MPARENT_ATTR_NAME && true)) s.edges =
        s.edges.filter (fun e =>
          !((e.dst.node == childNid) && (e.dst.attr == Meta.MPARENT_ATTR_NAME)))
      apply List.filter_congr
      intro e _
      simp
  exact ⟨by decide, hrun s h, hchild.1, hchild.2⟩

/-- C10, witness: the concrete parent, child and old-parent scene. -/
theorem addParent_missing_function_witness :
    Meta.metaAddParent 1 0 c10Scene =
      (c10Scene, Except.error (PyErr.attributeError
        "module plugs has no attribute nextAvailableDestElementPlug")) ∧
    (Meta.metaAddChild 0 1 c10Scene).1.edges = [] :=
  ⟨(addParent_missing_function c10Scene 0 1 rfl).2.1,
   by rw [(addParent_missing_function c10Scene 0 1 rfl).2.2.2]; rfl⟩

/-- Helper: a present attribute name occurs in the name list of the node. -/
theorem mem_attrNames_of_hasAttribute (s : Scene) (n : Nat) (a : String)
    (h : hasAttribute s n a = true) : a ∈ attrNames s n := by
  unfold hasAttribute at h
  unfold attrNames
  cases hq : findNode s n with
  | none => rw [hq] at h; cases h
  | some nd =>
    rw [hq] at h
    rcases List.any_eq_true.mp h with ⟨sl, hmem, hsl⟩
    have : sl.aname = a := beq_iff_eq.mp hsl
    exact this ▸ List.mem_map_of_mem (fun sl => sl.aname) hmem

/-- Helper: a walk with depthLimit below one yields nothing. -/
theorem iterDG_neg_depth (s : Scene) (p : Plug) (alt : String) (d : Int)
    (down : Bool) (h : d < 1) : Plugs.iterDependencyGraph s p alt d down = [] := by
  unfold Plugs.iterDependencyGraph
  have : d.toNat = 0 := Int.toNat_eq_zero.mpr (by omega)
  rw [this]
  rfl

/-- Helper: one unit of fuel yields exactly the direct neighbours. -/
theorem iterDGAux_one (s : Scene) (p : Plug) (alt : String) (down : Bool) :
    Plugs.iterDGAux s down 1 p alt = directDGNeighbors s p alt down := by
  show Plugs.iterDGAux s down (Nat.succ 0) p alt = directDGNeighbors s p alt down
  unfold Plugs.iterDGAux directDGNeighbors
  simp only []
  apply congrArg
  funext c
  by_cases hc : hasAttribute s c.node (if alt == "" then p.attr else alt) = true
  · rw [if_pos hc, if_pos hc]
    show (⟨c.node, _, none⟩ : Plug) ::
        (if plugIsConnected s ⟨c.node, _, none⟩ then Plugs.iterDGAux s down 0 _ _ else []) = _
    have h0 : Plugs.iterDGAux s down 0 ⟨c.node, (if alt == "" then p.attr else alt), none⟩
        (if alt == "" then p.attr else alt) = [] := rfl
    rw [h0, ite_self]
  · rw [if_neg hc, if_neg hc]

/-- Helper: membership in the fuel-indexed walk is bounded by hop count. -/
theorem iterDGAux_withinHops (s : Scene) (down : Bool) :
    ∀ (k : Nat) (p : Plug) (alt : String) (q : Plug),
      q ∈ Plugs.iterDGAux s down k p alt → withinHops s down k p q.node = true := by
  intro k
  induction k with
  | zero => intro p alt q hq; cases hq
  | succ k ih =>
    intro p alt q hq
    unfold Plugs.iterDGAux at hq
    rcases List.mem_flatMap.mp hq with ⟨c, hcmem, hq2⟩
    by_cases hattr : hasAttribute s c.node (if alt == "" then p.attr else alt) = true
    · rw [if_pos hattr] at hq2
      unfold withinHops
      apply List.any_eq_true.mpr
      refine ⟨c, hcmem, ?_⟩
      rcases List.mem_cons.mp hq2 with hq3 | hq3
      · apply Bool.or_eq_true_iff.mpr
        left
        rw [hq3]
        simp
      · apply Bool.or_eq_true_iff.mpr
        right
        apply List.any_eq_true.mpr
        refine ⟨(if alt == "" then p.attr else alt), mem_attrNames_of_hasAttribute s c.node _ hattr, ?_⟩
        by_cases hconn : plugIsConnected s
            ⟨c.node, (if alt == "" then p.attr else alt), none⟩ = true
        · rw [if_pos hconn] at hq3
          exact ih _ _ q hq3
        · rw [if_neg hconn] at hq3
          cases hq3
    · rw [if_neg hattr] at hq2
      cases hq2

/-- Helper: every yielded plug carries the searched name and sits on a node
exposing it. -/
theorem iterDGAux_name (s : Scene) (down : Bool) :
    ∀ (k : Nat) (p : Plug) (alt : String) (q : Plug),
      q ∈ Plugs.iterDGAux s down k p alt →
      q.attr = (if alt == "" then p.attr else alt) ∧
      hasAttribute s q.node q.attr = true ∧ q.idx = none := by
  intro k
  induction k with
  | zero => intro p alt q hq; cases hq
  | succ k ih =>
    intro p alt q hq
    unfold Plugs.iterDGAux at hq
    rcases List.mem_flatMap.mp hq with ⟨c, _, hq2⟩
    by_cases hattr : hasAttribute s c.node (if alt == "" then p.attr else alt) = true
    · rw [if_pos hattr] at hq2
      rcases List.mem_cons.mp hq2 with hq3 | hq3
      · rw [hq3]
        exact ⟨rfl, hattr, rfl⟩
      · by_cases hconn : plugIsConnected s
            ⟨c.node, (if alt == "" then p.attr else alt), none⟩ = true
        · rw [if_pos hconn] at hq3
          have hrec := ih ⟨c.node, (if alt == "" then p.attr else alt), none⟩
            (if alt == "" then p.attr else alt) q hq3
          refine ⟨?_, hrec.2⟩
          rw [hrec.1]
          by_cases h0 : ((if alt == "" then p.attr else alt) == "") = true
          · simp only [h0, if_true]
          · simp only [h0, Bool.false_eq_true, if_false]
        · rw [if_neg hconn] at hq3
          cases hq3
    · rw [if_neg hattr] at hq2
      cases hq2

/-- Helper: pruning touches only the connection list, so attribute presence
is unchanged. -/
theorem hasAttribute_prune (s : Scene) (nm : String) (n : Nat) (a : String) :
    hasAttribute (pruneScene s nm) n a = hasAttribute s n a := rfl

/-- Helper: the destinations of a plug in the pruned scene are the original
destinations filtered to nodes exposing the name. -/
theorem destinations_prune (s : Scene) (nm : String) (p : Plug) :
    destinations (pruneScene s nm) p =
      (destinations s p).filter (fun c => hasAttribute s c.node nm) := by
  unfold destinations pruneScene
  simp only []
  induction s.edges with
  | nil => rfl
  | cons e t ih =>
    by_cases h1 : hasAttribute s e.dst.node nm = true
    · by_cases h2 : (e.src == p) = true
      · simp only [List.filter_cons, h1, h2, if_true, List.map_cons]
        rw [ih]
      · simp only [List.filter_cons, h1, h2, if_true, Bool.false_eq_true, if_false]
        rw [ih]
    · have h1f : hasAttribute s e.dst.node nm = false := by
        cases hq : hasAttribute s e.dst.node nm with
        | false => rfl
        | true => exact absurd hq h1
      by_cases h2 : (e.src == p) = true
      · simp only [List.filter_cons, h1f, h2, if_true, Bool.false_eq_true, if_false,
          List.map_cons]
        exact ih
      · simp only [List.filter_cons, h1f, h2, Bool.false_eq_true, if_false]
        exact ih

/-- Helper: a plug with no connection in a scene has no destinations there. -/
theorem destinations_nil_of_not_connected (s2 : Scene) (q : Plug)
    (h : plugIsConnected s2 q = false) : destinations s2 q = [] := by
  unfold plugIsConnected isSourcePlug at h
  rcases Bool.or_eq_false_iff.mp h with ⟨h1, _⟩
  unfold destinations
  have : s2.edges.filter (fun e => e.src == q) = [] := by
    apply List.filter_eq_nil_iff.mpr
    intro e hmem
    intro hc
    have : s2.edges.any (fun e => e.src == q) = true :=
      List.any_eq_true.mpr ⟨e, hmem, hc⟩
    rw [this] at h1
    cases h1
  rw [this]
  rfl

/-- Helper: a plug connected in the pruned scene is connected in the
original scene. -/
theorem connected_of_connected_prune (s : Scene) (nm : String) (q : Plug)
    (h : plugIsConnected (pruneScene s nm) q = true) :
    plugIsConnected s q = true := by
  unfold plugIsConnected isSourcePlug isDestinationPlug pruneScene at *
  simp only [] at h
  rcases Bool.or_eq_true_iff.mp h with h1 | h1
  · rcases List.any_eq_true.mp h1 with ⟨e, hmem, hpred⟩
    exact Bool.or_eq_true_iff.mpr
      (Or.inl (List.any_eq_true.mpr ⟨e, List.mem_of_mem_filter hmem, hpred⟩))
  · rcases List.any_eq_true.mp h1 with ⟨e, hmem, hpred⟩
    exact Bool.or_eq_true_iff.mpr
      (Or.inr (List.any_eq_true.mpr ⟨e, List.mem_of_mem_filter hmem, hpred⟩))

/-- Helper: a walk from a plug with no destinations yields nothing going
down. -/
theorem iterDGAux_nil_of_no_dest (s2 : Scene) (k : Nat) (q : Plug) (alt : String)
    (h : destinations s2 q = []) : Plugs.iterDGAux s2 true k q alt = [] := by
  cases k with
  | zero => rfl
  | succ k =>
    unfold Plugs.iterDGAux
    simp only [Plugs.plugConns, if_true]
    rw [h]
    rfl

/-- Helper: flatMap over a filtered list equals flatMap with a guard. -/
theorem flatMap_filter_guard (l : List Plug) (pr : Plug → Bool)
    (f : Plug → List Plug) :
    (l.filter pr).flatMap f = l.flatMap (fun a => if pr a then f a else []) := by
  induction l with
  | nil => rfl
  | cons x t ih =>
    by_cases h1 : pr x = true
    · simp only [List.filter_cons, h1, if_true, List.flatMap_cons, ih]
    · simp only [List.filter_cons, h1, Bool.false_eq_true, if_false,
        List.flatMap_cons, ih, List.nil_append]

/-- Helper: the searched name propagated by the walk is a fixed point of the
name recomputation. -/
theorem carried_name_fix (nm : String) :
    (if nm == "" then (⟨0, nm, none⟩ : Plug).attr else nm) = nm := by
  by_cases h0 : (nm == "") = true
  · simp only [h0, if_true]
  · simp only [h0, Bool.false_eq_true, if_false]

/-- Helper: going down, walking the pruned scene (connections into nodes
lacking the searched name removed) yields exactly what walking the original
scene yields: each pruned connection only ever contributes the skip branch. -/
theorem iterDGAux_prune (s : Scene) (nm : String) :
    ∀ (k : Nat) (p : Plug) (alt : String),
      (if alt == "" then p.attr else alt) = nm →
      Plugs.iterDGAux s true k p alt =
        Plugs.iterDGAux (pruneScene s nm) true k p alt := by
  intro k
  induction k with
  | zero => intro p alt _; rfl
  | succ k ih =>
    intro p alt halt
    have hnmfix : (if nm == "" then (⟨_, nm, none⟩ : Plug).attr else nm) = nm :=
      carried_name_fix nm
    unfold Plugs.iterDGAux
    simp only [Plugs.plugConns, if_true]
    rw [halt]
    rw [destinations_prune s nm p]
    rw [flatMap_filter_guard]
    apply congrArg
    funext c
    by_cases hattr : hasAttribute s c.node nm = true
    · have hattr2 : hasAttribute (pruneScene s nm) c.node nm = true := hattr
      rw [if_pos hattr, if_pos hattr, if_pos hattr2]
      apply congrArg
      by_cases hc2 : plugIsConnected (pruneScene s nm) ⟨c.node, nm, none⟩ = true
      · rw [if_pos hc2, if_pos (connected_of_connected_prune s nm _ hc2)]
        exact ih ⟨c.node, nm, none⟩ nm (carried_name_fix nm)
      · rw [if_neg hc2]
        have hc2f : plugIsConnected (pruneScene s nm) ⟨c.node, nm, none⟩ = false := by
          cases hq : plugIsConnected (pruneScene s nm) ⟨c.node, nm, none⟩ with
          | false => rfl
          | true => exact absurd hq hc2
        by_cases hc1 : plugIsConnected s ⟨c.node, nm, none⟩ = true
        · rw [if_pos hc1]
          rw [ih ⟨c.node, nm, none⟩ nm (carried_name_fix nm)]
          exact iterDGAux_nil_of_no_dest (pruneScene s nm) k _ nm
            (destinations_nil_of_not_connected _ _ hc2f)
        · rw [if_neg hc1]
    · have hattr2 : hasAttribute (pruneScene s nm) c.node nm = false := by
        cases hq : hasAttribute (pruneScene s nm) c.node nm with
        | false => rfl
        | true => exact absurd hq hattr
      rw [if_neg hattr, if_neg hattr]

/-- Helper: one unit of fuel in the meta tree walk yields exactly the direct
meta neighbours. -/
theorem iterMetaTreeAux_one (s : Scene) (types : List String) (nid : Nat) :
    Meta.iterMetaTreeAux s types 1 nid = directTreeNeighbors s types nid := by
  show Meta.iterMetaTreeAux s types (Nat.succ 0) nid = directTreeNeighbors s types nid
  unfold Meta.iterMetaTreeAux directTreeNeighbors
  apply congrArg
  funext pr
  by_cases h1 : Meta.isMetaNodeB s types pr.2.node = true
  · rw [if_pos h1, if_pos h1]
    rfl
  · rw [if_neg h1, if_neg h1]

/-- Helper: membership in the fuel-indexed meta tree walk is bounded by
upstream hop count. -/
theorem iterMetaTreeAux_within (s : Scene) (types : List String) :
    ∀ (k : Nat) (n m : Nat), m ∈ Meta.iterMetaTreeAux s types k n →
      nodeWithinHopsUp s k n m = true := by
  intro k
  induction k with
  | zero => intro n m hm; cases hm
  | succ k ih =>
    intro n m hm
    unfold Meta.iterMetaTreeAux at hm
    rcases List.mem_flatMap.mp hm with ⟨pr, hprmem, hm2⟩
    by_cases h1 : Meta.isMetaNodeB s types pr.2.node = true
    · rw [if_pos h1] at hm2
      unfold nodeWithinHopsUp
      apply List.any_eq_true.mpr
      refine ⟨pr, hprmem, ?_⟩
      rcases List.mem_cons.mp hm2 with hm3 | hm3
      · apply Bool.or_eq_true_iff.mpr
        left
        rw [hm3]
        simp
      · apply Bool.or_eq_true_iff.mpr
        right
        exact ih pr.2.node m hm3
    · rw [if_neg h1] at hm2
      cases hm2

/-- C5.  Every traversal is strictly bounded by its depthLimit: a call with
depthLimit below one yields nothing; a call with depthLimit one yields
exactly the direct neighbours; and nothing a call yields lies more than
depthLimit hops from the starting slot (downwards or upwards as the walk
goes).  This covers iterDependencyGraph, iterMetaChildren (which walks the
children plug downwards) and iterMetaTree. -/
theorem traversal_depth_bounds :
    (∀ (s : Scene) (p : Plug) (alt : String) (d : Int) (down : Bool),
       d < 1 → Plugs.iterDependencyGraph s p alt d down = []) ∧
    (∀ (s : Scene) (p : Plug) (alt : String) (down : Bool),
       Plugs.iterDependencyGraph s p alt 1 down = directDGNeighbors s p alt down) ∧
    (∀ (s : Scene) (p : Plug) (alt : String) (d : Int) (down : Bool) (q : Plug),
       q ∈ Plugs.iterDependencyGraph s p alt d down →
       withinHops s down d.toNat p q.node = true) ∧
    (∀ (s : Scene) (nid : Nat) (d : Int) (l : List Nat),
       Meta.iterMetaChildren s nid d = Except.ok l →
       (d < 1 → l = []) ∧
       (d = 1 → l = (directDGNeighbors s ⟨nid, Meta.MCHILDREN_ATTR_NAME, none⟩
          "" true).map Plug.node) ∧
       (∀ m ∈ l, withinHops s true d.toNat
          ⟨nid, Meta.MCHILDREN_ATTR_NAME, none⟩ m = true)) ∧
    (∀ (s : Scene) (types : List String) (nid : Nat) (d : Int),
       d < 1 → Meta.iterMetaTree s types nid d = []) ∧
    (∀ (s : Scene) (types : List String) (nid : Nat),
       Meta.iterMetaTree s types nid 1 = directTreeNeighbors s types nid) ∧
    (∀ (s : Scene) (types : List String) (nid : Nat) (d : Int) (m : Nat),
       m ∈ Meta.iterMetaTree s types nid d →
       nodeWithinHopsUp s d.toNat nid m = true) := by
  have hdg1 : ∀ (s : Scene) (p : Plug) (alt : String) (d : Int) (down : Bool),
      d < 1 → Plugs.iterDependencyGraph s p alt d down = [] := iterDG_neg_depth
  have hdg2 : ∀ (s : Scene) (p : Plug) (alt : String) (down : Bool),
      Plugs.iterDependencyGraph s p alt 1 down = directDGNeighbors s p alt down := by
    intro s p alt down
    unfold Plugs.iterDependencyGraph
    exact iterDGAux_one s p alt down
  have hdg3 : ∀ (s : Scene) (p : Plug) (alt : String) (d : Int) (down : Bool) (q : Plug),
      q ∈ Plugs.iterDependencyGraph s p alt d down →
      withinHops s down d.toNat p q.node = true := by
    intro s p alt d down q hq
    exact iterDGAux_withinHops s down d.toNat p alt q hq
  refine ⟨hdg1, hdg2, hdg3, ?_, ?_, ?_, ?_⟩
  · intro s nid d l hok
    unfold Meta.iterMetaChildren at hok
    by_cases hattr : hasAttribute s nid Meta.MCHILDREN_ATTR_NAME = true
    · rw [if_pos hattr] at hok
      have hl : l = (Plugs.iterDependencyGraph s ⟨nid, Meta.MCHILDREN_ATTR_NAME, none⟩
          "" d true).map Plug.node := (Except.ok.injEq _ _).mp hok.symm
      refine ⟨?_, ?_, ?_⟩
      · intro hd
        rw [hl, hdg1 s _ "" d true hd]
        rfl
      · intro hd
        rw [hl, hd, hdg2 s _ "" true]
      · intro m hm
        rw [hl] at hm
        rcases List.mem_map.mp hm with ⟨q, hqmem, hqeq⟩
        rw [← hqeq]
        exact hdg3 s _ "" d true q hqmem
    · rw [if_neg hattr] at hok
      cases hok
  · intro s types nid d hd
    unfold Meta.iterMetaTree
    have : d.toNat = 0 := Int.toNat_eq_zero.mpr (by omega)
    rw [this]
    rfl
  · intro s types nid
    unfold Meta.iterMetaTree
    exact iterMetaTreeAux_one s types nid
  · intro s types nid d m hm
    exact iterMetaTreeAux_within s types d.toNat nid m hm

/-- C5, witness: on the three node chain, depthLimit zero yields nothing,
iterMetaChildren with depthLimit two yields the two descendants, and the
deeper one is certified within two hops of the children plug. -/
theorem traversal_depth_bounds_witness :
    Plugs.iterDependencyGraph chainScene ⟨0, Meta.MCHILDREN_ATTR_NAME, none⟩
      "" 0 true = [] ∧
    withinHops chainScene true (Int.toNat 2)
      ⟨0, Meta.MCHILDREN_ATTR_NAME, none⟩ 2 = true ∧
    Meta.iterMetaTree chainScene ["MetaBase"] 2 0 = [] :=
  ⟨traversal_depth_bounds.1 chainScene ⟨0, Meta.MCHILDREN_ATTR_NAME, none⟩ "" 0 true
     (by decide),
   (traversal_depth_bounds.2.2.2.1 chainScene 0 2 [1, 2] rfl).2.2 2 (by decide),
   traversal_depth_bounds.2.2.2.2.1 chainScene ["MetaBase"] 2 0 (by decide)⟩

/-- C6.  The walk is name threaded: every yielded plug carries the searched
name and sits on a node exposing it, and, going down, removing every
connection into a node lacking the searched name changes nothing about the
walk output: such a connection only terminates its own branch while the
remaining branches keep yielding. -/
theorem traversal_name_threading :
    (∀ (s : Scene) (p : Plug) (alt : String) (d : Int) (down : Bool) (q : Plug),
       q ∈ Plugs.iterDependencyGraph s p alt d down →
       q.attr = (if alt == "" then p.attr else alt) ∧
       hasAttribute s q.node q.attr = true) ∧
    (∀ (s : Scene) (p : Plug) (alt : String) (d : Int),
       Plugs.iterDependencyGraph s p alt d true =
       Plugs.iterDependencyGraph
         (pruneScene s (if alt == "" then p.attr else alt)) p alt d true) := by
  constructor
  · intro s p alt d down q hq
    have h := iterDGAux_name s down d.toNat p alt q hq
    exact ⟨h.1, h.2.1⟩
  · intro s p alt d
    unfold Plugs.iterDependencyGraph
    exact iterDGAux_prune s (if alt == "" then p.attr else alt) d.toNat p alt rfl

/-- C6, witness: in the branch scene, the walk from the rel plug yields the
rel plug of node 1, which carries the searched name, and pruning the edge
into the rel-free node 2 leaves the output unchanged. -/
theorem traversal_name_threading_witness :
    ((⟨1, "rel", none⟩ : Plug).attr = (if ("" == "") = true then (⟨0, "rel", none⟩ : Plug).attr else "") ∧
      hasAttribute c6Scene 1 "rel" = true) ∧
    Plugs.iterDependencyGraph c6Scene ⟨0, "rel", none⟩ "" 2 true =
      Plugs.iterDependencyGraph (pruneScene c6Scene "rel") ⟨0, "rel", none⟩ "" 2 true :=
  ⟨traversal_name_threading.1 c6Scene ⟨0, "rel", none⟩ "" 2 true ⟨1, "rel", none⟩
     (by decide),
   traversal_name_threading.2 c6Scene ⟨0, "rel", none⟩ "" 2⟩
